import Mathlib

/-!
Shallow embedding of the CAN-bus battery monitor core: the protocol data
model and decoding engine (src/can/protocol.cpp, protocol.h), the frame
dispatch layer (src/can/can_parser.cpp), the JSON protocol loader
(src/can/protocol_loader.cpp), the ring buffer (src/utils/ring_buffer.h),
the bus driver state machine (src/can/can_driver.cpp) and the traffic
logger (src/can/can_logger.cpp).  C `float` quantities are modelled as
exact rationals; IEEE-754 binary32 bit patterns are decoded by an explicit
function; machine-integer casts are modelled with explicit mod arithmetic.
-/

/-- One data byte (C `uint8_t`). -/
def Byte : Type := Fin 256

instance : DecidableEq Byte := instDecidableEqFin 256

instance : Inhabited Byte := ⟨⟨0, by norm_num⟩⟩

/-- Raw frame data, modelling the C `const uint8_t*` pointer: a total map
from byte index to byte value. -/
def ByteData : Type := ℕ → Byte

/-- protocol.cpp extractUint16LE: `data[off] | (data[off+1] << 8)`;
the or of disjoint byte lanes is their sum. -/
def extractUint16LE (d : ByteData) (off : ℕ) : ℕ :=
  (d off).val + 256 * (d (off + 1)).val

/-- protocol.cpp extractUint16BE: `(data[off] << 8) | data[off+1]`. -/
def extractUint16BE (d : ByteData) (off : ℕ) : ℕ :=
  256 * (d off).val + (d (off + 1)).val

/-- protocol.cpp extractUint32LE. -/
def extractUint32LE (d : ByteData) (off : ℕ) : ℕ :=
  (d off).val + 256 * (d (off + 1)).val + 65536 * (d (off + 2)).val +
    16777216 * (d (off + 3)).val

/-- protocol.cpp extractUint32BE. -/
def extractUint32BE (d : ByteData) (off : ℕ) : ℕ :=
  16777216 * (d off).val + 65536 * (d (off + 1)).val +
    256 * (d (off + 2)).val + (d (off + 3)).val

/-- C cast `(int8_t)` of a byte (two's complement). -/
def toInt8 (b : Byte) : ℤ :=
  if b.val < 128 then (b.val : ℤ) else (b.val : ℤ) - 256

/-- C cast `(int16_t)` of an unsigned 16-bit value (two's complement). -/
def toInt16 (n : ℕ) : ℤ :=
  if n % 65536 < 32768 then ((n % 65536 : ℕ) : ℤ)
  else ((n % 65536 : ℕ) : ℤ) - 65536

/-- C cast `(int32_t)` of an unsigned 32-bit value (two's complement). -/
def toInt32 (n : ℕ) : ℤ :=
  if n % 4294967296 < 2147483648 then ((n % 4294967296 : ℕ) : ℤ)
  else ((n % 4294967296 : ℕ) : ℤ) - 4294967296

/-- protocol.cpp extractInt16LE: `(int16_t)extractUint16LE(...)`. -/
def extractInt16LE (d : ByteData) (off : ℕ) : ℤ :=
  toInt16 (extractUint16LE d off)

/-- protocol.cpp extractInt16BE. -/
def extractInt16BE (d : ByteData) (off : ℕ) : ℤ :=
  toInt16 (extractUint16BE d off)

/-- protocol.cpp extractInt32LE. -/
def extractInt32LE (d : ByteData) (off : ℕ) : ℤ :=
  toInt32 (extractUint32LE d off)

/-- protocol.cpp extractInt32BE. -/
def extractInt32BE (d : ByteData) (off : ℕ) : ℤ :=
  toInt32 (extractUint32BE d off)

/-- Semantic value of a C `float`: NaN, a signed infinity, or a finite
value represented exactly as a rational. -/
inductive FVal : Type
  | nan : FVal
  | inf : Bool → FVal
  | finite : ℚ → FVal
deriving DecidableEq

/-- IEEE-754 binary32 interpretation of a 32-bit pattern (the `memcpy`
bit reinterpretation in extractFloatLE/BE made explicit). -/
def f32OfBits (bits : ℕ) : FVal :=
  let b := bits % 4294967296
  let s := b / 2147483648
  let e := (b / 8388608) % 256
  let m := b % 8388608
  if e = 255 then
    if m = 0 then .inf (s = 1) else .nan
  else
    let mag : ℚ :=
      if e = 0 then (m : ℚ) / (2 ^ 149 : ℚ)
      else ((8388608 + m : ℕ) : ℚ) * (2 ^ e : ℚ) / (2 ^ 150 : ℚ)
    .finite (if s = 1 then -mag else mag)

/-- Computes `v * scale + offset` on a float semantic value with finite
scale and offset (the final step of Field::extractValue for float
types). -/
def FVal.mulAdd (v : FVal) (scale offs : ℚ) : FVal :=
  match v with
  | .nan => .nan
  | .inf neg => if scale = 0 then .nan else .inf (xor neg (decide (scale < 0)))
  | .finite q => .finite (q * scale + offs)

/-- protocol.cpp extractFloatLE. -/
def extractFloatLE (d : ByteData) (off : ℕ) : FVal :=
  f32OfBits (extractUint32LE d off)

/-- protocol.cpp extractFloatBE. -/
def extractFloatBE (d : ByteData) (off : ℕ) : FVal :=
  f32OfBits (extractUint32BE d off)

/-- protocol.h DataType. -/
inductive DataType : Type
  | UINT8 | INT8
  | UINT16_LE | UINT16_BE | INT16_LE | INT16_BE
  | UINT32_LE | UINT32_BE | INT32_LE | INT32_BE
  | FLOAT_LE | FLOAT_BE
  | UNKNOWN
deriving DecidableEq

/-- protocol.cpp getDataTypeSize. -/
def getDataTypeSize (t : DataType) : ℕ :=
  match t with
  | .UINT8 | .INT8 => 1
  | .UINT16_LE | .UINT16_BE | .INT16_LE | .INT16_BE => 2
  | .UINT32_LE | .UINT32_BE | .INT32_LE | .INT32_BE | .FLOAT_LE | .FLOAT_BE => 4
  | .UNKNOWN => 0

/-- protocol.cpp stringToDataType. -/
def stringToDataType (s : String) : DataType :=
  if s = "uint8" then .UINT8
  else if s = "int8" then .INT8
  else if s = "uint16_le" then .UINT16_LE
  else if s = "uint16_be" then .UINT16_BE
  else if s = "int16_le" then .INT16_LE
  else if s = "int16_be" then .INT16_BE
  else if s = "uint32_le" then .UINT32_LE
  else if s = "uint32_be" then .UINT32_BE
  else if s = "int32_le" then .INT32_LE
  else if s = "int32_be" then .INT32_BE
  else if s = "float_le" then .FLOAT_LE
  else if s = "float_be" then .FLOAT_BE
  else .UNKNOWN

/-- protocol.h MAX_FIELDS_PER_MESSAGE. -/
def MAX_FIELDS_PER_MESSAGE : ℕ := 8

/-- protocol.h MAX_MESSAGES_PER_PROTOCOL. -/
def MAX_MESSAGES_PER_PROTOCOL : ℕ := 8

/-- protocol.h MAX_ENUM_VALUES. -/
def MAX_ENUM_VALUES : ℕ := 8

/-- protocol.h Field (members used by the decoding engine; enum table kept
as an association list). -/
structure FieldDef : Type where
  name : String := ""
  byte_offset : ℕ := 0
  length : ℕ := 1
  data_type : DataType := .UINT8
  unit : String := ""
  scale : ℚ := 1
  offset : ℚ := 0
  min_value : ℚ := 0
  max_value : ℚ := 0
  has_min : Bool := false
  has_max : Bool := false
  enum_values : List (ℕ × String) := []

/-- protocol.cpp Field::extractValue (the null-pointer guard is not
representable: ByteData is total). -/
def FieldDef.extractValue (f : FieldDef) (d : ByteData) : FVal :=
  match f.data_type with
  | .UINT8 => .finite (((d f.byte_offset).val : ℚ) * f.scale + f.offset)
  | .INT8 => .finite ((toInt8 (d f.byte_offset) : ℚ) * f.scale + f.offset)
  | .UINT16_LE => .finite ((extractUint16LE d f.byte_offset : ℚ) * f.scale + f.offset)
  | .UINT16_BE => .finite ((extractUint16BE d f.byte_offset : ℚ) * f.scale + f.offset)
  | .INT16_LE => .finite ((extractInt16LE d f.byte_offset : ℚ) * f.scale + f.offset)
  | .INT16_BE => .finite ((extractInt16BE d f.byte_offset : ℚ) * f.scale + f.offset)
  | .UINT32_LE => .finite ((extractUint32LE d f.byte_offset : ℚ) * f.scale + f.offset)
  | .UINT32_BE => .finite ((extractUint32BE d f.byte_offset : ℚ) * f.scale + f.offset)
  | .INT32_LE => .finite ((extractInt32LE d f.byte_offset : ℚ) * f.scale + f.offset)
  | .INT32_BE => .finite ((extractInt32BE d f.byte_offset : ℚ) * f.scale + f.offset)
  | .FLOAT_LE => (extractFloatLE d f.byte_offset).mulAdd f.scale f.offset
  | .FLOAT_BE => (extractFloatBE d f.byte_offset).mulAdd f.scale f.offset
  | .UNKNOWN => .nan

/-- protocol.cpp Field::isValueValid: NaN invalid, then the optional
min/max bounds. -/
def FieldDef.isValueValid (f : FieldDef) (v : FVal) : Bool :=
  match v with
  | .nan => false
  | .inf neg =>
      if f.has_min ∧ neg then false
      else if f.has_max ∧ ¬neg then false
      else true
  | .finite q =>
      if f.has_min ∧ q < f.min_value then false
      else if f.has_max ∧ f.max_value < q then false
      else true

/-- protocol.cpp Field::getEnumName: first exact match in the enum table. -/
def FieldDef.getEnumName (f : FieldDef) (raw : ℕ) : Option String :=
  (f.enum_values.find? (fun e => e.1 == raw)).map (·.2)

/-- protocol.h Message (fields array with its manual count, modelled as a
list). -/
structure Message : Type where
  can_id : ℕ := 0
  name : String := ""
  period_ms : ℕ := 100
  fields : List FieldDef := []

/-- protocol.cpp Message::findField: first field with the given name. -/
def Message.findField (m : Message) (fname : String) : Option FieldDef :=
  m.fields.find? (fun f => f.name == fname)

/-- protocol.h Definition. -/
structure Definition : Type where
  name : String := ""
  manufacturer : String := ""
  version : String := "1.0"
  description : String := ""
  cell_count : ℕ := 0
  nominal_voltage : ℚ := 0
  capacity_ah : ℚ := 0
  chemistry : String := "Li-ion"
  messages : List Message := []

/-- protocol.cpp Definition::findMessage: linear scan, first match. -/
def Definition.findMessage (d : Definition) (can_id : ℕ) : Option Message :=
  d.messages.find? (fun m => m.can_id == can_id)

/-- Per-field checks of Definition::isValid. -/
def fieldStructOk (f : FieldDef) : Bool :=
  if 8 ≤ f.byte_offset then false
  else if 8 < f.byte_offset + f.length then false
  else if getDataTypeSize f.data_type ≠ f.length then false
  else if f.scale = 0 then false
  else true

/-- Per-message checks of Definition::isValid. -/
def messageStructOk (m : Message) : Bool :=
  if m.fields.length = 0 then false
  else if MAX_FIELDS_PER_MESSAGE < m.fields.length then false
  else m.fields.all fieldStructOk

/-- protocol.cpp Definition::isValid. -/
def Definition.isValid (d : Definition) : Bool :=
  if d.name = "" then false
  else if d.messages.length = 0 then false
  else if MAX_MESSAGES_PER_PROTOCOL < d.messages.length then false
  else d.messages.all messageStructOk

/-- can_message.h CANMessage. -/
structure CANMessage : Type where
  id : ℕ := 0
  dlc : ℕ := 0
  data : ByteData := fun _ => default
  timestamp : ℕ := 0
  extended : Bool := false
  rtr : Bool := false

/-- can_message.h CANBatteryData; the default constructor zeroes every
member and sets valid to false.  (pack_identifier appears in the spec's
Reading and is assigned by the parser; the struct in can_message.h omits
it, so it is included here with the same zero default.) -/
structure CANBatteryData : Type where
  battery_id : ℕ := 0
  pack_voltage : FVal := .finite 0
  pack_current : FVal := .finite 0
  soc : ℕ := 0
  temp1 : FVal := .finite 0
  temp2 : FVal := .finite 0
  status_flags : ℕ := 0
  pack_identifier : ℕ := 0
  valid : Bool := false
deriving DecidableEq

/-- C truncation-toward-zero of a rational (float-to-integer conversion). -/
def truncF (q : ℚ) : ℤ := Int.tdiv q.num (q.den : ℤ)

/-- C++ `static_cast<uint8_t>` of a float value. -/
def castToU8 (v : FVal) : ℕ :=
  match v with
  | .finite q => (truncF q).toNat % 256
  | _ => 0

/-- C++ `static_cast<uint32_t>` of a float value. -/
def castToU32 (v : FVal) : ℕ :=
  match v with
  | .finite q => (truncF q).toNat % 4294967296
  | _ => 0

/-- Division of a float value by 1000 (the mV-to-V / mA-to-A conversion). -/
def FVal.div1000 (v : FVal) : FVal :=
  match v with
  | .finite q => .finite (q / 1000)
  | x => x

/-- can_parser.cpp CANParser::parseBatteryStatus (legacy fixed-layout
battery status frame). -/
def parseBatteryStatus (msg : CANMessage) (data : CANBatteryData) :
    Bool × CANBatteryData :=
  if msg.dlc < 8 then (false, data)
  else
    let data := { data with
      battery_id := ((msg.id + 4294967296 - 0x100) % 4294967296) % 256,
      pack_voltage := .finite ((extractUint16LE msg.data 0 : ℚ) * (1 / 10)),
      pack_current := .finite (((extractInt16LE msg.data 2 : ℚ) - 32000) * (1 / 10)),
      soc := (msg.data 4).val }
    let data :=
      if (msg.data 5).val ≠ 0xFF then
        { data with temp1 := .finite (((msg.data 5).val : ℚ) - 40) }
      else data
    let data :=
      if (msg.data 6).val ≠ 0xFF then
        { data with temp2 := .finite (((msg.data 6).val : ℚ) - 40) }
      else data
    (true, { data with status_flags := (msg.data 7).val, valid := true })

/-- can_parser.cpp CANParser::parseCellVoltages (legacy cell-voltage
frame: acknowledged as valid, no individual cells extracted). -/
def parseCellVoltages (msg : CANMessage) (data : CANBatteryData) :
    Bool × CANBatteryData :=
  if msg.dlc < 8 then (false, data)
  else
    (true, { data with
      battery_id := ((msg.id + 4294967296 - 0x200) % 4294967296) % 256,
      valid := true })

/-- One iteration of the field-mapping loop in
CANParser::parseWithProtocol: extract, skip NaN and range-invalid values,
then map well-known field names with unit normalization. -/
def applyProtoField (msg : CANMessage) (data : CANBatteryData) (f : FieldDef) :
    CANBatteryData :=
  let value := f.extractValue msg.data
  if value = .nan then data
  else if ¬ f.isValueValid value then data
  else if f.name = "pack_voltage" ∨ f.name = "total_voltage_mv" then
    { data with pack_voltage := if f.unit = "mV" then value.div1000 else value }
  else if f.name = "pack_current" then
    { data with pack_current := if f.unit = "mA" then value.div1000 else value }
  else if f.name = "soc" then { data with soc := castToU8 value }
  else if f.name = "temperature" ∨ f.name = "temp1" then { data with temp1 := value }
  else if f.name = "temp2" then { data with temp2 := value }
  else if f.name = "state" ∨ f.name = "status_flags" then
    { data with status_flags := castToU8 value }
  else if f.name = "pack_identifier" then
    { data with pack_identifier := castToU32 value }
  else data

/-- can_parser.cpp CANParser::parseWithProtocol. -/
def parseWithProtocol (proto : Definition) (msg : CANMessage)
    (data : CANBatteryData) : Bool × CANBatteryData :=
  match proto.findMessage msg.id with
  | none => (false, data)
  | some mdef =>
      (true, mdef.fields.foldl (applyProtoField msg) { data with valid := true })

/-- A registered per-CAN-ID message handler
(can_parser.h CANParser::MessageHandler). -/
def MessageHandler : Type := CANMessage → CANBatteryData → Bool × CANBatteryData

/-- can_parser.h CANParser state: active protocol pointer and the custom
handler registry (entries may hold a null function pointer). -/
structure CANParser : Type where
  protocol : Option Definition := none
  handlers : List (ℕ × Option MessageHandler) := []

/-- The handler-registry scan at the top of CANParser::parseMessage:
first entry whose can_id matches and whose handler is non-null. -/
def findHandler : List (ℕ × Option MessageHandler) → ℕ → Option MessageHandler
  | [], _ => none
  | (cid, h) :: rest, i =>
      if cid = i then
        match h with
        | some f => some f
        | none => findHandler rest i
      else findHandler rest i

/-- can_parser.cpp CANParser::parseMessage: clear the output record, then
custom handlers, then the active protocol, then the legacy fallbacks. -/
def CANParser.parseMessage (p : CANParser) (msg : CANMessage)
    (_prev : CANBatteryData) : Bool × CANBatteryData :=
  let data : CANBatteryData := {}
  match findHandler p.handlers msg.id with
  | some h => h msg data
  | none =>
      match p.protocol with
      | some proto => parseWithProtocol proto msg data
      | none =>
          if msg.id = 0x100 ∨ (0x100 ≤ msg.id ∧ msg.id ≤ 0x104) then
            parseBatteryStatus msg data
          else if 0x200 ≤ msg.id ∧ msg.id ≤ 0x204 then
            parseCellVoltages msg data
          else (false, data)

instance : Inhabited CANMessage := ⟨{}⟩

/-- utils/ring_buffer.h RingBuffer: fixed-capacity circular storage.
The backing array is a total map from slot index to element. -/
structure RingBuffer (α : Type) (SIZE : ℕ) : Type where
  buffer : ℕ → α
  head : ℕ := 0
  tail : ℕ := 0
  count : ℕ := 0

/-- A freshly constructed ring buffer (elements default-constructed). -/
def RingBuffer.empty (α : Type) (SIZE : ℕ) [Inhabited α] : RingBuffer α SIZE :=
  { buffer := fun _ => default }

/-- ring_buffer.h RingBuffer::push: write at head, advance head; advance
tail instead of count when full; always returns true. -/
def RingBuffer.push {α : Type} {SIZE : ℕ} (r : RingBuffer α SIZE) (item : α) :
    RingBuffer α SIZE × Bool :=
  let buf := fun i => if i = r.head then item else r.buffer i
  let h := (r.head + 1) % SIZE
  if r.count < SIZE then
    ({ buffer := buf, head := h, tail := r.tail, count := r.count + 1 }, true)
  else
    ({ buffer := buf, head := h, tail := (r.tail + 1) % SIZE, count := r.count }, true)

/-- ring_buffer.h RingBuffer::pop: FIFO removal, fails on empty. -/
def RingBuffer.pop {α : Type} {SIZE : ℕ} (r : RingBuffer α SIZE) :
    RingBuffer α SIZE × Option α :=
  if r.count = 0 then (r, none)
  else ({ r with tail := (r.tail + 1) % SIZE, count := r.count - 1 },
        some (r.buffer (r.tail % SIZE)))

/-- ring_buffer.h RingBuffer::clear. -/
def RingBuffer.clearAll {α : Type} {SIZE : ℕ} (r : RingBuffer α SIZE) :
    RingBuffer α SIZE :=
  { r with head := 0, tail := 0, count := 0 }

/-- The contents oldest-to-newest (ring_buffer.h RingBuffer::forEach
visiting order). -/
def RingBuffer.toList {α : Type} {SIZE : ℕ} (r : RingBuffer α SIZE) : List α :=
  (List.range r.count).map (fun i => r.buffer ((r.tail + i) % SIZE))

/-- The ring state after popping every element (the drain loop in
CANLogger::flush). -/
def RingBuffer.drained {α : Type} {SIZE : ℕ} (r : RingBuffer α SIZE) :
    RingBuffer α SIZE :=
  { r with tail := (r.tail + r.count) % SIZE, count := 0 }

/-- can_driver.h CANStatus. -/
inductive CANStatus : Type
  | UNINITIALIZED | RUNNING | BUS_OFF | ERROR
deriving DecidableEq

/-- The TWAI hardware controller state polled by the receive loop. -/
inductive TwaiState : Type
  | RUNNING | BUS_OFF | RECOVERING | STOPPED
deriving DecidableEq

/-- can_driver.h CANStats. -/
structure CANStats : Type where
  rx_count : ℕ := 0
  tx_count : ℕ := 0
  rx_dropped : ℕ := 0
  tx_failed : ℕ := 0
  bus_off_count : ℕ := 0
  error_count : ℕ := 0
  last_error_code : ℕ := 0
deriving DecidableEq

/-- can_driver.h CANDriver state relevant to the bus state machine and
the RX path. -/
structure CANDriver : Type where
  status : CANStatus := .UNINITIALIZED
  stats : CANStats := {}
  is_initialized : Bool := false
  rx_queue : RingBuffer CANMessage 100 := .empty CANMessage 100

/-- can_driver.cpp CANDriver::recoverBusOff.  The two booleans model the
hardware outcomes of twai_initiate_recovery and twai_start. -/
def CANDriver.recoverBusOff (d : CANDriver) (initiateOk startOk : Bool) :
    CANDriver × Bool :=
  if ¬ d.is_initialized then (d, false)
  else if initiateOk then
    if startOk then
      ({ d with
          status := .RUNNING,
          stats := { d.stats with bus_off_count := d.stats.bus_off_count + 1 } },
       true)
    else (d, false)
  else (d, false)

/-- can_driver.cpp CANDriver::handleBusError: count the error, then one
automatic recovery attempt. -/
def CANDriver.handleBusError (d : CANDriver) (initiateOk startOk : Bool) :
    CANDriver :=
  let d := { d with
    stats := { d.stats with error_count := d.stats.error_count + 1 } }
  (d.recoverBusOff initiateOk startOk).1

/-- The bus-error check at the end of
CANDriver::processReceivedMessages (lines 358-375): transition into
BUS_OFF exactly once per hardware bus-off report, with one automatic
recovery attempt; note an externally recovered bus. -/
def CANDriver.checkBusState (d : CANDriver) (hw : TwaiState)
    (initiateOk startOk : Bool) : CANDriver :=
  match hw with
  | .BUS_OFF =>
      if d.status ≠ .BUS_OFF then
        CANDriver.handleBusError { d with status := .BUS_OFF } initiateOk startOk
      else d
  | .RUNNING => if d.status = .BUS_OFF then { d with status := .RUNNING } else d
  | _ => d

/-- One frame of the RX drain loop in
CANDriver::processReceivedMessages (lines 334-350): push into the RX
ring, then count it as received or dropped.  (The synchronous callback
invocation is an external effect and is not modelled.) -/
def CANDriver.rxEnqueue (d : CANDriver) (msg : CANMessage) : CANDriver :=
  let pushed := d.rx_queue.push msg
  if ¬ pushed.2 then
    { d with
        rx_queue := pushed.1,
        stats := { d.stats with rx_dropped := d.stats.rx_dropped + 1 } }
  else
    { d with
        rx_queue := pushed.1,
        stats := { d.stats with rx_count := d.stats.rx_count + 1 } }

/-- An uppercase hexadecimal digit (snprintf %X). -/
def hexDigit (n : ℕ) : Char :=
  if n < 10 then Char.ofNat (48 + n) else Char.ofNat (55 + n)

/-- Hexadecimal digits of n, most significant first (empty for 0);
the first argument is recursion fuel. -/
def hexChars : ℕ → ℕ → List Char
  | 0, _ => []
  | fuel + 1, n => if n = 0 then [] else hexChars fuel (n / 16) ++ [hexDigit (n % 16)]

/-- snprintf %0wX: uppercase hex, zero-padded to at least w digits. -/
def hexPad (w n : ℕ) : String :=
  let s := if n = 0 then "0" else String.mk (hexChars n n)
  String.mk (List.replicate (w - s.length) (Char.ofNat 48)) ++ s

/-- The data_str accumulation loop of CANLogger::formatMessageCSV:
two hex digits per byte with a space between consecutive bytes; the
second argument is the loop index, the third is fuel. -/
def dataStrAux (msg : CANMessage) : ℕ → ℕ → String
  | _, 0 => ""
  | i, fuel + 1 =>
      if i < msg.dlc ∧ i < 8 then
        hexPad 2 (msg.data i).val ++ (if i < msg.dlc - 1 then " " else "") ++
          dataStrAux msg (i + 1) fuel
      else ""

/-- can_logger.cpp CANLogger::formatMessageCSV. -/
def formatMessageCSV (msg : CANMessage) : String :=
  toString msg.timestamp ++ ",0x" ++ hexPad 3 msg.id ++ "," ++ toString msg.dlc ++
    "," ++ dataStrAux msg 0 8 ++ "," ++ (if msg.extended then "1" else "0") ++
    "," ++ (if msg.rtr then "1" else "0")

/-- The CSV header row written by CANLogger::begin and CANLogger::clear. -/
def csvHeader : String := "Timestamp,ID,DLC,Data,Extended,RTR"

/-- can_logger.h CANLogger state; the log file on persistent storage is
modelled as its list of lines. -/
structure CANLogger : Type where
  is_initialized : Bool := false
  memory_buffer : RingBuffer CANMessage 2000 := .empty CANMessage 2000
  write_buffer : RingBuffer CANMessage 100 := .empty CANMessage 100
  message_count : ℕ := 0
  dropped_count : ℕ := 0
  last_flush_time : ℕ := 0
  auto_flush : Bool := true
  flush_interval_ms : ℕ := 5000
  file : List String := []

/-- can_logger.cpp CANLogger::begin on an absent or empty log file:
storage mounted, header row written. -/
def loggerBegin (now : ℕ) : CANLogger :=
  { is_initialized := true, file := [csvHeader], last_flush_time := now }

/-- can_logger.cpp CANLogger::clear (the success path): file recreated
with the header, both rings and both counters reset. -/
def CANLogger.clearLog (lg : CANLogger) : CANLogger :=
  { lg with
      file := [csvHeader],
      memory_buffer := lg.memory_buffer.clearAll,
      write_buffer := lg.write_buffer.clearAll,
      message_count := 0, dropped_count := 0 }

/-- can_logger.cpp CANLogger::flush.  mutexOk models acquiring the lock
within its timeout, fileOk models opening the file, rotate models
checkAndRotate reporting that the storage threshold was exceeded (in
which case the log is cleared). -/
def CANLogger.flush (lg : CANLogger) (mutexOk fileOk rotate : Bool)
    (now : ℕ) : CANLogger × Bool :=
  if ¬ lg.is_initialized ∨ lg.write_buffer.count = 0 then (lg, true)
  else if ¬ mutexOk then (lg, true)
  else if ¬ fileOk then (lg, false)
  else
    let lines := lg.write_buffer.toList.map formatMessageCSV
    let lg := { lg with
                  write_buffer := lg.write_buffer.drained,
                  file := lg.file ++ lines, last_flush_time := now }
    if rotate then (lg.clearLog, true) else (lg, true)

/-- can_logger.cpp CANLogger::logMessage: push into both rings, count,
and auto-flush when the interval has elapsed. -/
def CANLogger.logMessage (lg : CANLogger) (msg : CANMessage)
    (mutexOk fileOk rotate : Bool) (now : ℕ) : CANLogger × Bool :=
  if ¬ lg.is_initialized then (lg, false)
  else
    let lg := { lg with memory_buffer := (lg.memory_buffer.push msg).1 }
    let pushed := lg.write_buffer.push msg
    if ¬ pushed.2 then
      ({ lg with
           write_buffer := pushed.1,
           dropped_count := lg.dropped_count + 1 }, false)
    else
      let lg := { lg with
                    write_buffer := pushed.1,
                    message_count := lg.message_count + 1 }
      if lg.auto_flush ∧ lg.flush_interval_ms ≤ now - lg.last_flush_time then
        lg.flush mutexOk fileOk rotate now
      else (lg, true)

/-- A parsed JSON document (the ArduinoJson document the loader walks). -/
inductive Json : Type
  | null : Json
  | bool : Bool → Json
  | num : ℚ → Json
  | str : String → Json
  | arr : List Json → Json
  | obj : List (String × Json) → Json

/-- ArduinoJson operator[]: member lookup, null when absent or not an
object. -/
def Json.get : Json → String → Json
  | .obj l, k =>
      match l.find? (fun p => p.1 == k) with
      | some p => p.2
      | none => .null
  | _, _ => .null

/-- ArduinoJson `| dflt` on a string member. -/
def Json.asStrOr (j : Json) (dflt : String) : String :=
  match j with
  | .str s => s
  | _ => dflt

/-- ArduinoJson `| dflt` on a float member. -/
def Json.asNumOr (j : Json) (dflt : ℚ) : ℚ :=
  match j with
  | .num q => q
  | _ => dflt

/-- ArduinoJson unsigned-integer conversion with default: truncate toward
zero and reduce modulo the type width. -/
def Json.asNatOr (j : Json) (dflt w : ℕ) : ℕ :=
  match j with
  | .num q => (truncF q).toNat % w
  | _ => dflt

/-- ArduinoJson containsKey. -/
def Json.containsKey (j : Json) (k : String) : Bool :=
  match j with
  | .obj l => l.any (fun p => p.1 == k)
  | _ => false

/-- protocol_loader.cpp Loader::parseField (enum table parsed per
Loader::parseEnumValues: decimal key, capacity-checked). -/
def loaderParseField (j : Json) : Except String FieldDef :=
  let dt :=
    match j.get "data_type" with
    | .str s => stringToDataType s
    | _ => .UNKNOWN
  if dt = .UNKNOWN then .error "Unknown data type"
  else
    let enums : List (ℕ × String) :=
      match j.get "enum_values" with
      | .obj l => l.map (fun p => ((p.1.toNat?).getD 0, p.2.asStrOr ""))
      | _ => []
    if j.containsKey "enum_values" ∧ MAX_ENUM_VALUES < enums.length then
      .error "Too many enum values"
    else
      .ok { name := (j.get "name").asStrOr "",
            unit := (j.get "unit").asStrOr "",
            byte_offset := (j.get "byte_offset").asNatOr 0 256,
            length := (j.get "length").asNatOr 0 256,
            scale := (j.get "scale").asNumOr 1,
            offset := (j.get "offset").asNumOr 0,
            data_type := dt,
            has_min := j.containsKey "min_value",
            has_max := j.containsKey "max_value",
            min_value := (j.get "min_value").asNumOr 0,
            max_value := (j.get "max_value").asNumOr 0,
            enum_values := enums }

/-- The field-array loop of Loader::parseMessage: capacity check before
each field, first failure aborts. -/
def loaderParseFields : List Json → ℕ → Except String (List FieldDef)
  | [], _ => .ok []
  | x :: rest, n =>
      if MAX_FIELDS_PER_MESSAGE ≤ n then .error "Too many fields"
      else do
        let f ← loaderParseField x
        let fs ← loaderParseFields rest (n + 1)
        .ok (f :: fs)

/-- protocol_loader.cpp Loader::parseMessage. -/
def loaderParseMessage (j : Json) : Except String Message := do
  match j.get "fields" with
  | .arr fl =>
      let fs ← loaderParseFields fl 0
      .ok { can_id := (j.get "can_id").asNatOr 0 4294967296,
            name := (j.get "name").asStrOr "",
            period_ms := (j.get "period_ms").asNatOr 100 65536,
            fields := fs }
  | _ => .error "No fields array in message"

/-- The message-array loop of Loader::parseProtocol. -/
def loaderParseMessages : List Json → ℕ → Except String (List Message)
  | [], _ => .ok []
  | x :: rest, n =>
      if MAX_MESSAGES_PER_PROTOCOL ≤ n then .error "Too many messages"
      else do
        let m ← loaderParseMessage x
        let ms ← loaderParseMessages rest (n + 1)
        .ok (m :: ms)

/-- protocol_loader.cpp Loader::parseProtocol on an already-deserialized
document (Loader::loadFromString minus JSON text parsing): top-level
scalars with their defaults, the messages array, then the
Definition::isValid gate.  An `.error` result models `return false` with
the given last-error string. -/
def loaderParseProtocol (doc : Json) : Except String Definition := do
  match doc.get "messages" with
  | .arr ml =>
      let ms ← loaderParseMessages ml 0
      let proto : Definition :=
        { name := (doc.get "name").asStrOr "",
          manufacturer := (doc.get "manufacturer").asStrOr "",
          version := (doc.get "version").asStrOr "1.0",
          description := (doc.get "description").asStrOr "",
          chemistry := (doc.get "chemistry").asStrOr "Li-ion",
          cell_count := (doc.get "cell_count").asNatOr 0 256,
          nominal_voltage := (doc.get "nominal_voltage").asNumOr 0,
          capacity_ah := (doc.get "capacity_ah").asNumOr 0,
          messages := ms }
      if ¬ proto.isValid then .error "Protocol validation failed"
      else .ok proto
  | _ => .error "No messages array found"

/-- Little-endian byte serialization of a bit pattern. -/
def bytesLE (bits : ℕ) : ByteData :=
  fun i => ⟨bits / 256 ^ i % 256, Nat.mod_lt _ (by norm_num)⟩

/-- Big-endian byte serialization of a bit pattern into w bytes. -/
def bytesBE (w bits : ℕ) : ByteData :=
  fun i => ⟨bits / 256 ^ (w - 1 - i) % 256, Nat.mod_lt _ (by norm_num)⟩

/-- Place encoded bytes at a byte offset inside a frame. -/
def shiftData (b : ℕ) (d : ByteData) : ByteData := fun i => d (i - b)

/-- The raw integer values representable in each data type (for the two
float types the raw value is the 32-bit pattern of the encoded float). -/
def rawInRange (dt : DataType) (raw : ℤ) : Bool :=
  match dt with
  | .UINT8 => decide (0 ≤ raw ∧ raw < 256)
  | .INT8 => decide (-128 ≤ raw ∧ raw < 128)
  | .UINT16_LE | .UINT16_BE => decide (0 ≤ raw ∧ raw < 65536)
  | .INT16_LE | .INT16_BE => decide (-32768 ≤ raw ∧ raw < 32768)
  | .UINT32_LE | .UINT32_BE => decide (0 ≤ raw ∧ raw < 4294967296)
  | .INT32_LE | .INT32_BE => decide (-2147483648 ≤ raw ∧ raw < 2147483648)
  | .FLOAT_LE | .FLOAT_BE => decide (0 ≤ raw ∧ raw < 4294967296)
  | .UNKNOWN => false

/-- Encoding of a raw value into bytes: two's complement bit pattern in
the data type's width, serialized with the declared endianness (the
inverse of the extraction functions). -/
def encodeRaw (dt : DataType) (raw : ℤ) : ByteData :=
  match dt with
  | .UINT8 | .INT8 => bytesLE ((raw % 256).toNat)
  | .UINT16_LE | .INT16_LE => bytesLE ((raw % 65536).toNat)
  | .UINT16_BE | .INT16_BE => bytesBE 2 ((raw % 65536).toNat)
  | .UINT32_LE | .INT32_LE | .FLOAT_LE => bytesLE ((raw % 4294967296).toNat)
  | .UINT32_BE | .INT32_BE | .FLOAT_BE => bytesBE 4 ((raw % 4294967296).toNat)
  | .UNKNOWN => fun _ => default

/-- A field of the given data type at a byte offset with a scale and an
offset and no range bounds. -/
def mkField (dt : DataType) (b : ℕ) (scale offs : ℚ) : FieldDef :=
  { name := "value", byte_offset := b, length := getDataTypeSize dt,
    data_type := dt, scale := scale, offset := offs }

/-- A frame data function built from a list of byte values. -/
def byteListData (l : List ℕ) : ByteData :=
  fun i => ⟨l.getD i 0 % 256, Nat.mod_lt _ (by norm_num)⟩

theorem shiftData_app (b k : ℕ) (d : ByteData) : shiftData b d (b + k) = d k := by
  simp [shiftData]

theorem extract16LE_bytesLE (n b : ℕ) :
    extractUint16LE (shiftData b (bytesLE n)) b = n % 65536 := by
  have h0 : b + 0 = b := by omega
  have e0 := shiftData_app b 0 (bytesLE n)
  have e1 := shiftData_app b 1 (bytesLE n)
  rw [h0] at e0
  unfold extractUint16LE
  rw [e0, e1]
  simp only [bytesLE, pow_zero, pow_one, Nat.div_one]
  omega

theorem extract16BE_bytesBE (n b : ℕ) :
    extractUint16BE (shiftData b (bytesBE 2 n)) b = n % 65536 := by
  have h0 : b + 0 = b := by omega
  have e0 := shiftData_app b 0 (bytesBE 2 n)
  have e1 := shiftData_app b 1 (bytesBE 2 n)
  rw [h0] at e0
  unfold extractUint16BE
  rw [e0, e1]
  norm_num [bytesBE]
  omega

theorem extract32LE_bytesLE (n b : ℕ) :
    extractUint32LE (shiftData b (bytesLE n)) b = n % 4294967296 := by
  have h0 : b + 0 = b := by omega
  have e0 := shiftData_app b 0 (bytesLE n)
  have e1 := shiftData_app b 1 (bytesLE n)
  have e2 := shiftData_app b 2 (bytesLE n)
  have e3 := shiftData_app b 3 (bytesLE n)
  rw [h0] at e0
  unfold extractUint32LE
  rw [e0, e1, e2, e3]
  norm_num [bytesLE]
  omega

theorem extract32BE_bytesBE (n b : ℕ) :
    extractUint32BE (shiftData b (bytesBE 4 n)) b = n % 4294967296 := by
  have h0 : b + 0 = b := by omega
  have e0 := shiftData_app b 0 (bytesBE 4 n)
  have e1 := shiftData_app b 1 (bytesBE 4 n)
  have e2 := shiftData_app b 2 (bytesBE 4 n)
  have e3 := shiftData_app b 3 (bytesBE 4 n)
  rw [h0] at e0
  unfold extractUint32BE
  rw [e0, e1, e2, e3]
  norm_num [bytesBE]
  omega

theorem roundtrip_u8 (b : ℕ) (scale offs : ℚ) (raw : ℤ)
    (h1 : 0 ≤ raw) (h2 : raw < 256) :
    (mkField .UINT8 b scale offs).extractValue (shiftData b (encodeRaw .UINT8 raw)) =
      .finite ((raw : ℚ) * scale + offs) := by
  show FVal.finite (((shiftData b (encodeRaw .UINT8 raw) b).val : ℚ) * scale + offs) = _
  have hval : (shiftData b (encodeRaw .UINT8 raw) b).val = (raw % 256).toNat % 256 := by
    simp [shiftData, encodeRaw, bytesLE]
  rw [hval]
  have hq : (((raw % 256).toNat % 256 : ℕ) : ℚ) = (raw : ℚ) := by
    have hz : (((raw % 256).toNat % 256 : ℕ) : ℤ) = raw := by omega
    have h3 : ((((raw % 256).toNat % 256 : ℕ) : ℤ) : ℚ) = ((raw : ℤ) : ℚ) := by rw [hz]
    rw [Int.cast_natCast] at h3
    exact h3
  rw [hq]

theorem roundtrip_i8 (b : ℕ) (scale offs : ℚ) (raw : ℤ)
    (h1 : -128 ≤ raw) (h2 : raw < 128) :
    (mkField .INT8 b scale offs).extractValue (shiftData b (encodeRaw .INT8 raw)) =
      .finite ((raw : ℚ) * scale + offs) := by
  show FVal.finite ((toInt8 (shiftData b (encodeRaw .INT8 raw) b) : ℚ) * scale + offs) = _
  have hval : toInt8 (shiftData b (encodeRaw .INT8 raw) b) = raw := by
    simp only [shiftData, encodeRaw, bytesLE, Nat.sub_self, pow_zero, Nat.div_one, toInt8]
    split <;> omega
  rw [hval]

theorem roundtrip_u16le (b : ℕ) (scale offs : ℚ) (raw : ℤ)
    (h1 : 0 ≤ raw) (h2 : raw < 65536) :
    (mkField .UINT16_LE b scale offs).extractValue
        (shiftData b (encodeRaw .UINT16_LE raw)) =
      .finite ((raw : ℚ) * scale + offs) := by
  show FVal.finite
      ((extractUint16LE (shiftData b (bytesLE ((raw % 65536).toNat))) b : ℚ) *
        scale + offs) = _
  rw [extract16LE_bytesLE]
  have hq : (((raw % 65536).toNat % 65536 : ℕ) : ℚ) = (raw : ℚ) := by
    have hz : (((raw % 65536).toNat % 65536 : ℕ) : ℤ) = raw := by omega
    have h3 : ((((raw % 65536).toNat % 65536 : ℕ) : ℤ) : ℚ) = ((raw : ℤ) : ℚ) := by rw [hz]
    rw [Int.cast_natCast] at h3
    exact h3
  rw [hq]

theorem roundtrip_u16be (b : ℕ) (scale offs : ℚ) (raw : ℤ)
    (h1 : 0 ≤ raw) (h2 : raw < 65536) :
    (mkField .UINT16_BE b scale offs).extractValue
        (shiftData b (encodeRaw .UINT16_BE raw)) =
      .finite ((raw : ℚ) * scale + offs) := by
  show FVal.finite
      ((extractUint16BE (shiftData b (bytesBE 2 ((raw % 65536).toNat))) b : ℚ) *
        scale + offs) = _
  rw [extract16BE_bytesBE]
  have hq : (((raw % 65536).toNat % 65536 : ℕ) : ℚ) = (raw : ℚ) := by
    have hz : (((raw % 65536).toNat % 65536 : ℕ) : ℤ) = raw := by omega
    have h3 : ((((raw % 65536).toNat % 65536 : ℕ) : ℤ) : ℚ) = ((raw : ℤ) : ℚ) := by rw [hz]
    rw [Int.cast_natCast] at h3
    exact h3
  rw [hq]

theorem roundtrip_i16le (b : ℕ) (scale offs : ℚ) (raw : ℤ)
    (h1 : -32768 ≤ raw) (h2 : raw < 32768) :
    (mkField .INT16_LE b scale offs).extractValue
        (shiftData b (encodeRaw .INT16_LE raw)) =
      .finite ((raw : ℚ) * scale + offs) := by
  show FVal.finite
      ((toInt16 (extractUint16LE (shiftData b (bytesLE ((raw % 65536).toNat))) b) : ℚ) *
        scale + offs) = _
  rw [extract16LE_bytesLE]
  have hq : toInt16 ((raw % 65536).toNat % 65536) = raw := by
    unfold toInt16; split <;> omega
  rw [hq]

theorem roundtrip_i16be (b : ℕ) (scale offs : ℚ) (raw : ℤ)
    (h1 : -32768 ≤ raw) (h2 : raw < 32768) :
    (mkField .INT16_BE b scale offs).extractValue
        (shiftData b (encodeRaw .INT16_BE raw)) =
      .finite ((raw : ℚ) * scale + offs) := by
  show FVal.finite
      ((toInt16 (extractUint16BE (shiftData b (bytesBE 2 ((raw % 65536).toNat))) b) : ℚ) *
        scale + offs) = _
  rw [extract16BE_bytesBE]
  have hq : toInt16 ((raw % 65536).toNat % 65536) = raw := by
    unfold toInt16; split <;> omega
  rw [hq]

theorem roundtrip_u32le (b : ℕ) (scale offs : ℚ) (raw : ℤ)
    (h1 : 0 ≤ raw) (h2 : raw < 4294967296) :
    (mkField .UINT32_LE b scale offs).extractValue
        (shiftData b (encodeRaw .UINT32_LE raw)) =
      .finite ((raw : ℚ) * scale + offs) := by
  show FVal.finite
      ((extractUint32LE (shiftData b (bytesLE ((raw % 4294967296).toNat))) b : ℚ) *
        scale + offs) = _
  rw [extract32LE_bytesLE]
  have hq : (((raw % 4294967296).toNat % 4294967296 : ℕ) : ℚ) = (raw : ℚ) := by
    have hz : (((raw % 4294967296).toNat % 4294967296 : ℕ) : ℤ) = raw := by omega
    have h3 : ((((raw % 4294967296).toNat % 4294967296 : ℕ) : ℤ) : ℚ) = ((raw : ℤ) : ℚ) := by rw [hz]
    rw [Int.cast_natCast] at h3
    exact h3
  rw [hq]

theorem roundtrip_u32be (b : ℕ) (scale offs : ℚ) (raw : ℤ)
    (h1 : 0 ≤ raw) (h2 : raw < 4294967296) :
    (mkField .UINT32_BE b scale offs).extractValue
        (shiftData b (encodeRaw .UINT32_BE raw)) =
      .finite ((raw : ℚ) * scale + offs) := by
  show FVal.finite
      ((extractUint32BE (shiftData b (bytesBE 4 ((raw % 4294967296).toNat))) b : ℚ) *
        scale + offs) = _
  rw [extract32BE_bytesBE]
  have hq : (((raw % 4294967296).toNat % 4294967296 : ℕ) : ℚ) = (raw : ℚ) := by
    have hz : (((raw % 4294967296).toNat % 4294967296 : ℕ) : ℤ) = raw := by omega
    have h3 : ((((raw % 4294967296).toNat % 4294967296 : ℕ) : ℤ) : ℚ) = ((raw : ℤ) : ℚ) := by rw [hz]
    rw [Int.cast_natCast] at h3
    exact h3
  rw [hq]

theorem roundtrip_i32le (b : ℕ) (scale offs : ℚ) (raw : ℤ)
    (h1 : -2147483648 ≤ raw) (h2 : raw < 2147483648) :
    (mkField .INT32_LE b scale offs).extractValue
        (shiftData b (encodeRaw .INT32_LE raw)) =
      .finite ((raw : ℚ) * scale + offs) := by
  show FVal.finite
      ((toInt32 (extractUint32LE (shiftData b (bytesLE ((raw % 4294967296).toNat))) b) : ℚ) *
        scale + offs) = _
  rw [extract32LE_bytesLE]
  have hq : toInt32 ((raw % 4294967296).toNat % 4294967296) = raw := by
    unfold toInt32; split <;> omega
  rw [hq]

theorem roundtrip_i32be (b : ℕ) (scale offs : ℚ) (raw : ℤ)
    (h1 : -2147483648 ≤ raw) (h2 : raw < 2147483648) :
    (mkField .INT32_BE b scale offs).extractValue
        (shiftData b (encodeRaw .INT32_BE raw)) =
      .finite ((raw : ℚ) * scale + offs) := by
  show FVal.finite
      ((toInt32 (extractUint32BE (shiftData b (bytesBE 4 ((raw % 4294967296).toNat))) b) : ℚ) *
        scale + offs) = _
  rw [extract32BE_bytesBE]
  have hq : toInt32 ((raw % 4294967296).toNat % 4294967296) = raw := by
    unfold toInt32; split <;> omega
  rw [hq]

theorem roundtrip_fle (b : ℕ) (scale offs : ℚ) (bits : ℕ) (q : ℚ)
    (hb : bits < 4294967296) (hq : f32OfBits bits = .finite q) :
    (mkField .FLOAT_LE b scale offs).extractValue
        (shiftData b (encodeRaw .FLOAT_LE (bits : ℤ))) =
      .finite (q * scale + offs) := by
  show (f32OfBits
      (extractUint32LE (shiftData b (bytesLE (((bits : ℤ) % 4294967296).toNat))) b)).mulAdd
        scale offs = _
  rw [extract32LE_bytesLE]
  have hn : (((bits : ℤ) % 4294967296).toNat % 4294967296) = bits := by omega
  rw [hn, hq]
  rfl

theorem roundtrip_fbe (b : ℕ) (scale offs : ℚ) (bits : ℕ) (q : ℚ)
    (hb : bits < 4294967296) (hq : f32OfBits bits = .finite q) :
    (mkField .FLOAT_BE b scale offs).extractValue
        (shiftData b (encodeRaw .FLOAT_BE (bits : ℤ))) =
      .finite (q * scale + offs) := by
  show (f32OfBits
      (extractUint32BE (shiftData b (bytesBE 4 (((bits : ℤ) % 4294967296).toNat))) b)).mulAdd
        scale offs = _
  rw [extract32BE_bytesBE]
  have hn : (((bits : ℤ) % 4294967296).toNat % 4294967296) = bits := by omega
  rw [hn, hq]
  rfl

/-- C1: for every data_type token and every raw value representable in
that type, encoding the value with the inverse transform (raw two's
complement bit pattern serialized in the declared endianness at the
field's byte offset) and decoding with Field::extractValue recovers the
original value raw*scale+offset exactly (hence within float epsilon);
for the float types any finite IEEE-754 bit pattern round-trips to its
value times scale plus offset; in particular a U16LE field with
scale=0.1, offset=0 over bytes [0x0C,0x02] yields raw 0x020C=524 and
decoded value 52.4. -/
theorem C1_extractValue_roundtrip :
    (∀ (dt : DataType) (b : ℕ) (scale offs : ℚ) (raw : ℤ),
        dt ≠ .FLOAT_LE → dt ≠ .FLOAT_BE → dt ≠ .UNKNOWN →
        rawInRange dt raw = true →
        (mkField dt b scale offs).extractValue (shiftData b (encodeRaw dt raw)) =
          .finite ((raw : ℚ) * scale + offs)) ∧
    (∀ (b : ℕ) (scale offs : ℚ) (bits : ℕ) (q : ℚ),
        bits < 4294967296 → f32OfBits bits = .finite q →
        (mkField .FLOAT_LE b scale offs).extractValue
            (shiftData b (encodeRaw .FLOAT_LE (bits : ℤ))) =
          .finite (q * scale + offs) ∧
        (mkField .FLOAT_BE b scale offs).extractValue
            (shiftData b (encodeRaw .FLOAT_BE (bits : ℤ))) =
          .finite (q * scale + offs)) ∧
    (extractUint16LE (byteListData [0x0C, 0x02]) 0 = 524 ∧
      (mkField .UINT16_LE 0 (1 / 10) 0).extractValue (byteListData [0x0C, 0x02]) =
        .finite (52.4 : ℚ)) := by
  refine ⟨?_, ?_, by decide, ?_⟩
  · intro dt b scale offs raw h1 h2 h3 hr
    cases dt with
    | UINT8 =>
        simp only [rawInRange, decide_eq_true_eq] at hr
        exact roundtrip_u8 b scale offs raw hr.1 hr.2
    | INT8 =>
        simp only [rawInRange, decide_eq_true_eq] at hr
        exact roundtrip_i8 b scale offs raw hr.1 hr.2
    | UINT16_LE =>
        simp only [rawInRange, decide_eq_true_eq] at hr
        exact roundtrip_u16le b scale offs raw hr.1 hr.2
    | UINT16_BE =>
        simp only [rawInRange, decide_eq_true_eq] at hr
        exact roundtrip_u16be b scale offs raw hr.1 hr.2
    | INT16_LE =>
        simp only [rawInRange, decide_eq_true_eq] at hr
        exact roundtrip_i16le b scale offs raw hr.1 hr.2
    | INT16_BE =>
        simp only [rawInRange, decide_eq_true_eq] at hr
        exact roundtrip_i16be b scale offs raw hr.1 hr.2
    | UINT32_LE =>
        simp only [rawInRange, decide_eq_true_eq] at hr
        exact roundtrip_u32le b scale offs raw hr.1 hr.2
    | UINT32_BE =>
        simp only [rawInRange, decide_eq_true_eq] at hr
        exact roundtrip_u32be b scale offs raw hr.1 hr.2
    | INT32_LE =>
        simp only [rawInRange, decide_eq_true_eq] at hr
        exact roundtrip_i32le b scale offs raw hr.1 hr.2
    | INT32_BE =>
        simp only [rawInRange, decide_eq_true_eq] at hr
        exact roundtrip_i32be b scale offs raw hr.1 hr.2
    | FLOAT_LE => exact absurd rfl h1
    | FLOAT_BE => exact absurd rfl h2
    | UNKNOWN => exact absurd rfl h3
  · intro b scale offs bits q hb hq
    exact ⟨roundtrip_fle b scale offs bits q hb hq,
           roundtrip_fbe b scale offs bits q hb hq⟩
  · have h524 : extractUint16LE (byteListData [0x0C, 0x02]) 0 = 524 := by decide
    show FVal.finite
        ((extractUint16LE (byteListData [0x0C, 0x02]) 0 : ℚ) * (1 / 10) + 0) =
      FVal.finite (52.4 : ℚ)
    rw [h524]
    congr 1
    norm_num

/-- Witness for C1: the INT16_LE instance raw=32035, scale=0.1,
offset=-3200 at byte offset 2, and the FLOAT_LE instance for the bit
pattern of 1.0f. -/
theorem C1_extractValue_roundtrip_witness :
    (rawInRange .INT16_LE 32035 = true ∧
      (mkField .INT16_LE 2 (1 / 10) (-3200)).extractValue
          (shiftData 2 (encodeRaw .INT16_LE 32035)) =
        .finite ((32035 : ℚ) * (1 / 10) + (-3200))) ∧
    (f32OfBits 1065353216 = .finite 1 ∧
      (mkField .FLOAT_LE 3 2 5).extractValue
          (shiftData 3 (encodeRaw .FLOAT_LE (1065353216 : ℤ))) =
        .finite (1 * 2 + 5)) :=
  ⟨⟨by decide,
    C1_extractValue_roundtrip.1 .INT16_LE 2 (1 / 10) (-3200) 32035
      (by decide) (by decide) (by decide) (by decide)⟩,
   ⟨by simp only [f32OfBits]; norm_num,
    (C1_extractValue_roundtrip.2.1 3 2 5 1065353216 1 (by decide)
      (by simp only [f32OfBits]; norm_num)).1⟩⟩

theorem fieldStructOk_iff (f : FieldDef) :
    fieldStructOk f = true ↔
      f.byte_offset < 8 ∧ f.byte_offset + f.length ≤ 8 ∧
        getDataTypeSize f.data_type = f.length ∧ f.scale ≠ 0 := by
  unfold fieldStructOk
  split_ifs with h1 h2 h3 h4 <;> simp_all

theorem messageStructOk_iff (m : Message) :
    messageStructOk m = true ↔
      m.fields ≠ [] ∧ m.fields.length ≤ MAX_FIELDS_PER_MESSAGE ∧
        ∀ f ∈ m.fields, fieldStructOk f = true := by
  unfold messageStructOk
  split_ifs with h1 h2
  · simp_all
  · constructor
    · intro h; exact h.elim
    · intro h; exact absurd h.2.1 (not_le.mpr h2)
  · simp_all [List.all_eq_true, List.length_eq_zero]

theorem isValid_iff (d : Definition) :
    d.isValid = true ↔
      d.name ≠ "" ∧ d.messages ≠ [] ∧
        d.messages.length ≤ MAX_MESSAGES_PER_PROTOCOL ∧
        ∀ m ∈ d.messages, messageStructOk m = true := by
  unfold Definition.isValid
  split_ifs with h1 h2 h3
  · simp_all
  · simp_all [List.length_eq_zero]
  · constructor
    · intro h; exact h.elim
    · intro h; exact absurd h.2.2.1 (not_le.mpr h3)
  · simp_all [List.all_eq_true, List.length_eq_zero]

/-- C4: Definition::isValid returns false for any Definition containing a
field with byte_offset 7 and length 2, or with length 2 but data type
uint8, or with scale 0; and it returns true only if the name is
non-empty, the message count is within capacity, and every field has
byte_offset < 8, byte_offset + length <= 8, length equal to the data
type's natural width, and nonzero scale. -/
theorem C4_isValid_structural_gate :
    (∀ (d : Definition) (m : Message) (f : FieldDef),
        m ∈ d.messages → f ∈ m.fields →
        ((f.byte_offset = 7 ∧ f.length = 2) ∨
          (f.length = 2 ∧ f.data_type = .UINT8) ∨ f.scale = 0) →
        d.isValid = false) ∧
    (∀ d : Definition, d.isValid = true →
        d.name ≠ "" ∧ d.messages.length ≤ MAX_MESSAGES_PER_PROTOCOL ∧
        ∀ m ∈ d.messages, ∀ f ∈ m.fields,
          f.byte_offset < 8 ∧ f.byte_offset + f.length ≤ 8 ∧
            f.length = getDataTypeSize f.data_type ∧ f.scale ≠ 0) := by
  have hsecond : ∀ d : Definition, d.isValid = true →
      d.name ≠ "" ∧ d.messages.length ≤ MAX_MESSAGES_PER_PROTOCOL ∧
      ∀ m ∈ d.messages, ∀ f ∈ m.fields,
        f.byte_offset < 8 ∧ f.byte_offset + f.length ≤ 8 ∧
          f.length = getDataTypeSize f.data_type ∧ f.scale ≠ 0 := by
    intro d hv
    rw [isValid_iff] at hv
    refine ⟨hv.1, hv.2.2.1, ?_⟩
    intro m hm f hf
    have hmv := (messageStructOk_iff m).mp (hv.2.2.2 m hm)
    have hfv := (fieldStructOk_iff f).mp (hmv.2.2 f hf)
    exact ⟨hfv.1, hfv.2.1, hfv.2.2.1.symm, hfv.2.2.2⟩
  refine ⟨?_, hsecond⟩
  intro d m f hm hf hbad
  cases hval : d.isValid with
  | false => rfl
  | true =>
      exfalso
      have h := (hsecond d hval).2.2 m hm f hf
      rcases hbad with ⟨h7, h2⟩ | ⟨h2, ht⟩ | h0
      · omega
      · rw [h2, ht] at h; simp [getDataTypeSize] at h
      · exact h.2.2.2 h0

/-- A structurally invalid field: byte_offset 7 with length 2. -/
def badField7 : FieldDef :=
  { name := "x", byte_offset := 7, length := 2, data_type := .UINT16_LE }

/-- A message containing badField7. -/
def badMsg7 : Message := { can_id := 0x100, name := "m", fields := [badField7] }

/-- A definition containing badMsg7. -/
def badDef7 : Definition := { name := "B", messages := [badMsg7] }

/-- Witness for C4: the bounds-violating field makes its Definition
invalid. -/
theorem C4_isValid_structural_gate_witness : badDef7.isValid = false :=
  C4_isValid_structural_gate.1 badDef7 badMsg7 badField7
    (by simp [badDef7]) (by simp [badMsg7]) (Or.inl ⟨rfl, rfl⟩)

/-- C9: Definition::isValid is stricter than the spec's structural gate:
it also rejects a Definition with no messages, and a Definition any of
whose messages has no fields. -/
theorem C9_isValid_rejects_empty :
    (∀ d : Definition, d.messages = [] → d.isValid = false) ∧
    (∀ (d : Definition) (m : Message),
        m ∈ d.messages → m.fields = [] → d.isValid = false) := by
  constructor
  · intro d h
    unfold Definition.isValid
    rw [h]
    split_ifs <;> simp_all
  · intro d m hm hf
    cases hval : d.isValid with
    | false => rfl
    | true =>
        exfalso
        have hv := (isValid_iff d).mp hval
        have hmv := (messageStructOk_iff m).mp (hv.2.2.2 m hm)
        exact hmv.1 hf

/-- A named definition with no messages. -/
def emptyMsgsDef : Definition := { name := "E" }

/-- A message with no fields. -/
def emptyFieldsMsg : Message := { can_id := 1, name := "m" }

/-- A named definition whose only message has no fields. -/
def emptyFieldsDef : Definition := { name := "F", messages := [emptyFieldsMsg] }

/-- Witness for C9: both empty shapes are rejected. -/
theorem C9_isValid_rejects_empty_witness :
    emptyMsgsDef.isValid = false ∧ emptyFieldsDef.isValid = false :=
  ⟨C9_isValid_rejects_empty.1 emptyMsgsDef rfl,
   C9_isValid_rejects_empty.2 emptyFieldsDef emptyFieldsMsg
     (by simp [emptyFieldsDef]) rfl⟩

/-- C2: CANParser::parseMessage resolves the decode method in a fixed
order, first match wins: a registered custom handler for the frame's CAN
ID, else the active Definition, else the legacy fallback parsers (battery
status for IDs 0x100-0x104). -/
theorem C2_dispatch_order :
    (∀ (p : CANParser) (msg : CANMessage) (prev : CANBatteryData)
        (h : MessageHandler),
        findHandler p.handlers msg.id = some h →
        p.parseMessage msg prev = h msg {}) ∧
    (∀ (p : CANParser) (msg : CANMessage) (prev : CANBatteryData)
        (proto : Definition),
        findHandler p.handlers msg.id = none → p.protocol = some proto →
        p.parseMessage msg prev = parseWithProtocol proto msg {}) ∧
    (∀ (p : CANParser) (msg : CANMessage) (prev : CANBatteryData),
        findHandler p.handlers msg.id = none → p.protocol = none →
        msg.id = 0x100 → p.parseMessage msg prev = parseBatteryStatus msg {}) := by
  refine ⟨?_, ?_, ?_⟩
  · intro p msg prev h hf
    unfold CANParser.parseMessage
    rw [hf]
  · intro p msg prev proto hf hp
    unfold CANParser.parseMessage
    rw [hf, hp]
  · intro p msg prev hf hp hid
    unfold CANParser.parseMessage
    rw [hf, hp]
    simp [hid]

/-- A custom handler used to exercise the dispatch order. -/
def exHandler : MessageHandler := fun _ data => (true, { data with soc := 42 })

/-- A protocol message for CAN ID 0x100. -/
def protoMsg100 : Message :=
  { can_id := 0x100, name := "status",
    fields := [{ name := "pack_voltage", byte_offset := 0, length := 2,
                 data_type := .UINT16_LE, scale := 1 / 10 }] }

/-- A protocol definition containing protoMsg100. -/
def exProto : Definition := { name := "P", messages := [protoMsg100] }

/-- A frame with CAN ID 0x100. -/
def frame100 : CANMessage :=
  { id := 0x100, dlc := 8, data := byteListData [0, 1, 2, 3, 4, 5, 6, 7] }

/-- Parser with both a custom handler for 0x100 and an active protocol. -/
def parserBoth : CANParser :=
  { protocol := some exProto, handlers := [(0x100, some exHandler)] }

/-- Parser with only an active protocol. -/
def parserProto : CANParser := { protocol := some exProto }

/-- Parser with neither handler nor protocol. -/
def parserBare : CANParser := {}

/-- Witness for C2: at CAN ID 0x100 the handler wins over the active
protocol, the protocol wins over the legacy parser. -/
theorem C2_dispatch_order_witness :
    parserBoth.parseMessage frame100 {} = exHandler frame100 {} ∧
    parserProto.parseMessage frame100 {} = parseWithProtocol exProto frame100 {} ∧
    parserBare.parseMessage frame100 {} = parseBatteryStatus frame100 {} :=
  ⟨C2_dispatch_order.1 parserBoth frame100 {} exHandler rfl,
   C2_dispatch_order.2.1 parserProto frame100 {} exProto rfl rfl,
   C2_dispatch_order.2.2 parserBare frame100 {} rfl rfl rfl⟩

/-- C10: CANParser::parseMessage resets the output record to the default
CANBatteryData before any decode, so its result does not depend on the
previous contents of the output argument; and (with the handler registry
empty, as in this repository, which never registers a handler) whenever
it returns false the output equals the default record. -/
theorem C10_output_reset_on_failure :
    (∀ (p : CANParser) (msg : CANMessage) (prev1 prev2 : CANBatteryData),
        p.parseMessage msg prev1 = p.parseMessage msg prev2) ∧
    (∀ (p : CANParser) (msg : CANMessage) (prev : CANBatteryData),
        p.handlers = [] → (p.parseMessage msg prev).1 = false →
        (p.parseMessage msg prev).2 = ({} : CANBatteryData)) := by
  constructor
  · intro p msg prev1 prev2; rfl
  · intro p msg prev hh hf
    unfold CANParser.parseMessage at hf ⊢
    rw [hh] at hf ⊢
    simp only [findHandler] at hf ⊢
    cases hp : p.protocol with
    | some proto =>
        rw [hp] at hf
        have hf2 : (parseWithProtocol proto msg ({} : CANBatteryData)).1 = false := hf
        show (parseWithProtocol proto msg ({} : CANBatteryData)).2 =
          ({} : CANBatteryData)
        unfold parseWithProtocol at hf2 ⊢
        cases hm : proto.findMessage msg.id with
        | some mdef => rw [hm] at hf2; simp at hf2
        | none => rfl
    | none =>
        rw [hp] at hf
        have hf2 :
            ((if msg.id = 0x100 ∨ (0x100 ≤ msg.id ∧ msg.id ≤ 0x104) then
                parseBatteryStatus msg ({} : CANBatteryData)
              else if 0x200 ≤ msg.id ∧ msg.id ≤ 0x204 then
                parseCellVoltages msg ({} : CANBatteryData)
              else (false, ({} : CANBatteryData)))).1 = false := hf
        show (if msg.id = 0x100 ∨ (0x100 ≤ msg.id ∧ msg.id ≤ 0x104) then
                parseBatteryStatus msg ({} : CANBatteryData)
              else if 0x200 ≤ msg.id ∧ msg.id ≤ 0x204 then
                parseCellVoltages msg ({} : CANBatteryData)
              else (false, ({} : CANBatteryData))).2 = ({} : CANBatteryData)
        split_ifs at hf2 ⊢ with hcond1 hcond2
        · unfold parseBatteryStatus at hf2 ⊢
          split_ifs at hf2 ⊢ with hdlc
          rfl
        · unfold parseCellVoltages at hf2 ⊢
          split_ifs at hf2 ⊢ with hdlc
          rfl
        · rfl

/-- A frame whose CAN ID no decoder recognizes. -/
def unknownFrame : CANMessage := { id := 0x999 }

/-- Witness for C10: a failed decode of an unknown ID leaves the default
record even when the output argument previously held other data. -/
theorem C10_output_reset_on_failure_witness :
    (parserBare.parseMessage unknownFrame
        { soc := 99, valid := true }).2 = ({} : CANBatteryData) :=
  C10_output_reset_on_failure.2 parserBare unknownFrame
    { soc := 99, valid := true } rfl rfl

/-- The documented legacy battery-status frame whose bytes 2-3 encode
32035 little-endian (0x7D23). -/
def legacyFrame : CANMessage :=
  { id := 0x100, dlc := 8, data := byteListData [0, 0, 0x23, 0x7D, 0, 0, 0, 0] }

/-- The generic pack_current field: I16LE at byte offset 2, scale 0.1,
offset -3200. -/
def currentField : FieldDef :=
  { name := "pack_current", byte_offset := 2, length := 2,
    data_type := .INT16_LE, scale := 1 / 10, offset := -3200 }

/-- C8: for raw 32035 in bytes 2-3, the legacy parser's
(raw-32000)*0.1 and the generic raw*scale+offset with scale=0.1,
offset=-3200 both yield exactly 3.5 A. -/
theorem C8_pack_current_reconciled :
    extractInt16LE legacyFrame.data 2 = 32035 ∧
    (parseBatteryStatus legacyFrame {}).2.pack_current = .finite (3.5 : ℚ) ∧
    currentField.extractValue legacyFrame.data = .finite (3.5 : ℚ) ∧
    ((32035 : ℚ) - 32000) * (1 / 10) = (32035 : ℚ) * (1 / 10) + (-3200) := by
  have hraw : extractInt16LE legacyFrame.data 2 = 32035 := by decide
  refine ⟨hraw, ?_, ?_, by norm_num⟩
  · show FVal.finite (((extractInt16LE legacyFrame.data 2 : ℚ) - 32000) * (1 / 10)) = _
    rw [hraw]
    congr 1
    norm_num
  · show FVal.finite ((extractInt16LE legacyFrame.data 2 : ℚ) * (1 / 10) + (-3200)) = _
    rw [hraw]
    congr 1
    norm_num

theorem ringBuffer_push_returns_true {α : Type} {SIZE : ℕ}
    (r : RingBuffer α SIZE) (x : α) : (r.push x).2 = true := by
  unfold RingBuffer.push
  split_ifs <;> rfl

theorem flush_dropped_count (lg : CANLogger) (mutexOk fileOk rotate : Bool)
    (now : ℕ) :
    (lg.flush mutexOk fileOk rotate now).1.dropped_count = lg.dropped_count ∨
      (lg.flush mutexOk fileOk rotate now).1.dropped_count = 0 := by
  unfold CANLogger.flush
  split_ifs <;> simp [CANLogger.clearLog]

/-- C3: RingBuffer::push returns true on every call, so the
false-return branches at its call sites are dead: the RX path always
takes the rx_count branch and never increments rx_dropped, and
CANLogger::logMessage never increments dropped_count (dropped_count can
only be reset to 0 by log rotation inside an auto-flush). -/
theorem C3_push_never_fails :
    (∀ (α : Type) (SIZE : ℕ) (r : RingBuffer α SIZE) (x : α),
        (r.push x).2 = true) ∧
    (∀ (d : CANDriver) (msg : CANMessage),
        (d.rxEnqueue msg).stats.rx_dropped = d.stats.rx_dropped ∧
        (d.rxEnqueue msg).stats.rx_count = d.stats.rx_count + 1) ∧
    (∀ (lg : CANLogger) (msg : CANMessage) (mutexOk fileOk rotate : Bool)
        (now : ℕ),
        (lg.logMessage msg mutexOk fileOk rotate now).1.dropped_count =
            lg.dropped_count ∨
          (lg.logMessage msg mutexOk fileOk rotate now).1.dropped_count = 0) := by
  refine ⟨fun α SIZE r x => ringBuffer_push_returns_true r x, ?_, ?_⟩
  · intro d msg
    unfold CANDriver.rxEnqueue
    simp [ringBuffer_push_returns_true]
  · intro lg msg mutexOk fileOk rotate now
    unfold CANLogger.logMessage
    split_ifs with h1
    · simp only []
      have hcond : ¬¬((lg.write_buffer.push msg).2 = true) := by
        simp [ringBuffer_push_returns_true]
      rw [if_neg hcond]
      split_ifs with h3
      · exact flush_dropped_count _ mutexOk fileOk rotate now
      · left; rfl
    · left; rfl

/-- C7: hardware bus-off while Running transitions Running to BusOff and
increments error_count exactly once per detected bus-off event (a later
poll while already BusOff changes nothing, so failed retries are not
re-counted); a successful recovery, automatic or via recoverBusOff,
transitions BusOff to Running and increments bus_off_count by exactly 1;
a failed recovery leaves the state and bus_off_count unchanged. -/
theorem C7_busoff_state_machine :
    (∀ (d : CANDriver) (iOk sOk : Bool), d.status = .RUNNING →
        ¬(iOk = true ∧ sOk = true) →
        (d.checkBusState .BUS_OFF iOk sOk).status = .BUS_OFF ∧
        (d.checkBusState .BUS_OFF iOk sOk).stats.error_count =
          d.stats.error_count + 1 ∧
        (d.checkBusState .BUS_OFF iOk sOk).stats.bus_off_count =
          d.stats.bus_off_count) ∧
    (∀ d : CANDriver, d.status = .RUNNING → d.is_initialized = true →
        (d.checkBusState .BUS_OFF true true).status = .RUNNING ∧
        (d.checkBusState .BUS_OFF true true).stats.error_count =
          d.stats.error_count + 1 ∧
        (d.checkBusState .BUS_OFF true true).stats.bus_off_count =
          d.stats.bus_off_count + 1) ∧
    (∀ (d : CANDriver) (iOk sOk : Bool), d.status = .BUS_OFF →
        d.checkBusState .BUS_OFF iOk sOk = d) ∧
    (∀ d : CANDriver, d.status = .BUS_OFF → d.is_initialized = true →
        (d.recoverBusOff true true).1.status = .RUNNING ∧
        (d.recoverBusOff true true).1.stats.bus_off_count =
          d.stats.bus_off_count + 1 ∧
        (d.recoverBusOff true true).2 = true) ∧
    (∀ (d : CANDriver) (iOk sOk : Bool), ¬(iOk = true ∧ sOk = true) →
        (d.recoverBusOff iOk sOk).1 = d ∧
        (d.recoverBusOff iOk sOk).2 = false) := by
  have hrecfail : ∀ (d : CANDriver) (iOk sOk : Bool),
      ¬(iOk = true ∧ sOk = true) →
      (d.recoverBusOff iOk sOk).1 = d ∧ (d.recoverBusOff iOk sOk).2 = false := by
    intro d iOk sOk hne
    unfold CANDriver.recoverBusOff
    cases iOk with
    | false => split_ifs <;> simp_all
    | true =>
        cases sOk with
        | true => exact absurd ⟨rfl, rfl⟩ hne
        | false => split_ifs <;> simp_all
  have hrecok : ∀ d : CANDriver, d.is_initialized = true →
      (d.recoverBusOff true true).1.status = .RUNNING ∧
      (d.recoverBusOff true true).1.stats.bus_off_count =
        d.stats.bus_off_count + 1 ∧
      (d.recoverBusOff true true).2 = true ∧
      (d.recoverBusOff true true).1.stats.error_count = d.stats.error_count := by
    intro d hi
    unfold CANDriver.recoverBusOff
    simp [hi]
  refine ⟨?_, ?_, ?_,
    fun d _ hi => ⟨(hrecok d hi).1, (hrecok d hi).2.1, (hrecok d hi).2.2.1⟩,
    hrecfail⟩
  · intro d iOk sOk hs hne
    unfold CANDriver.checkBusState
    rw [hs]
    simp only [reduceCtorEq, ne_eq, not_false_eq_true, if_true]
    unfold CANDriver.handleBusError
    have h := hrecfail { d with
        status := CANStatus.BUS_OFF,
        stats := { d.stats with error_count := d.stats.error_count + 1 } }
      iOk sOk hne
    refine ⟨?_, ?_, ?_⟩
    · show ((({ d with
          status := CANStatus.BUS_OFF,
          stats := { d.stats with error_count := d.stats.error_count + 1 } } :
            CANDriver).recoverBusOff iOk sOk).1).status = CANStatus.BUS_OFF
      rw [h.1]
    · show ((({ d with
          status := CANStatus.BUS_OFF,
          stats := { d.stats with error_count := d.stats.error_count + 1 } } :
            CANDriver).recoverBusOff iOk sOk).1).stats.error_count =
        d.stats.error_count + 1
      rw [h.1]
    · show ((({ d with
          status := CANStatus.BUS_OFF,
          stats := { d.stats with error_count := d.stats.error_count + 1 } } :
            CANDriver).recoverBusOff iOk sOk).1).stats.bus_off_count =
        d.stats.bus_off_count
      rw [h.1]
  · intro d hs hi
    unfold CANDriver.checkBusState
    rw [hs]
    simp only [reduceCtorEq, ne_eq, not_false_eq_true, if_true]
    unfold CANDriver.handleBusError
    have h := hrecok { d with
        status := CANStatus.BUS_OFF,
        stats := { d.stats with error_count := d.stats.error_count + 1 } } hi
    refine ⟨?_, ?_, ?_⟩
    · show ((({ d with
          status := CANStatus.BUS_OFF,
          stats := { d.stats with error_count := d.stats.error_count + 1 } } :
            CANDriver).recoverBusOff true true).1).status = CANStatus.RUNNING
      exact h.1
    · show ((({ d with
          status := CANStatus.BUS_OFF,
          stats := { d.stats with error_count := d.stats.error_count + 1 } } :
            CANDriver).recoverBusOff true true).1).stats.error_count =
        d.stats.error_count + 1
      rw [h.2.2.2]
    · show ((({ d with
          status := CANStatus.BUS_OFF,
          stats := { d.stats with error_count := d.stats.error_count + 1 } } :
            CANDriver).recoverBusOff true true).1).stats.bus_off_count =
        d.stats.bus_off_count + 1
      rw [h.2.1]
  · intro d iOk sOk hs
    unfold CANDriver.checkBusState
    rw [hs]
    simp

/-- An initialized driver in the Running state. -/
def runningDriver : CANDriver := { status := .RUNNING, is_initialized := true }

/-- An initialized driver in the BusOff state. -/
def busOffDriver : CANDriver := { status := .BUS_OFF, is_initialized := true }

/-- Witness for C7: concrete transitions of the bus-off machine. -/
theorem C7_busoff_state_machine_witness :
    (runningDriver.checkBusState .BUS_OFF false false).status = .BUS_OFF ∧
    (runningDriver.checkBusState .BUS_OFF true true).stats.bus_off_count =
      runningDriver.stats.bus_off_count + 1 ∧
    busOffDriver.checkBusState .BUS_OFF false false = busOffDriver ∧
    (busOffDriver.recoverBusOff true true).1.status = .RUNNING ∧
    (busOffDriver.recoverBusOff false false).2 = false :=
  ⟨(C7_busoff_state_machine.1 runningDriver false false rfl (by simp)).1,
   (C7_busoff_state_machine.2.1 runningDriver rfl rfl).2.2,
   C7_busoff_state_machine.2.2.1 busOffDriver false false rfl,
   (C7_busoff_state_machine.2.2.2.1 busOffDriver rfl rfl).1,
   (C7_busoff_state_machine.2.2.2.2 busOffDriver false false (by simp)).2⟩

/-- Spec-level join of hex byte strings with a single space between
consecutive bytes (the amended data-column format). -/
def specJoinSpace : List String → String
  | [] => ""
  | [s] => s
  | s :: rest => s ++ " " ++ specJoinSpace rest

theorem specJoinSpace_cons_ne (s : String) (l : List String) (h : l ≠ []) :
    specJoinSpace (s :: l) = s ++ " " ++ specJoinSpace l := by
  cases l with
  | nil => exact absurd rfl h
  | cons b t => rfl

/-- The amended CSV line: timestamp, 0x-prefixed 3-hex-digit ID, decimal
dlc, space-separated two-hex-digit bytes, extended flag, rtr flag. -/
def amendedCsvLine (msg : CANMessage) : String :=
  toString msg.timestamp ++ ",0x" ++ hexPad 3 msg.id ++ "," ++ toString msg.dlc ++
    "," ++ specJoinSpace ((List.range msg.dlc).map
      (fun i => hexPad 2 (msg.data i).val)) ++ "," ++
    (if msg.extended then "1" else "0") ++ "," ++ (if msg.rtr then "1" else "0")

theorem dataStrAux_eq_join (msg : CANMessage) (hdlc : msg.dlc ≤ 8) :
    ∀ (fuel i : ℕ), msg.dlc ≤ i + fuel →
      dataStrAux msg i fuel =
        specJoinSpace ((List.range' i (msg.dlc - i)).map
          (fun j => hexPad 2 (msg.data j).val)) := by
  intro fuel
  induction fuel with
  | zero =>
      intro i hi
      have h0 : msg.dlc - i = 0 := by omega
      rw [h0]
      rfl
  | succ fuel ih =>
      intro i hi
      by_cases hcase : i < msg.dlc
      · have hi8 : i < 8 := by omega
        have hrange : msg.dlc - i = (msg.dlc - (i + 1)) + 1 := by omega
        simp only [dataStrAux]
        rw [if_pos ⟨hcase, hi8⟩, hrange, List.range'_succ, List.map_cons]
        by_cases hlast : i + 1 < msg.dlc
        · have hsep : i < msg.dlc - 1 := by omega
          rw [if_pos hsep]
          have hne : (List.range' (i + 1) (msg.dlc - (i + 1))).map
              (fun j => hexPad 2 (msg.data j).val) ≠ [] := by
            have : msg.dlc - (i + 1) ≠ 0 := by omega
            simp [List.range'_eq_nil, this]
          rw [specJoinSpace_cons_ne _ _ hne, ih (i + 1) (by omega)]
        · have hsep : ¬ i < msg.dlc - 1 := by omega
          rw [if_neg hsep]
          have hstop : msg.dlc - (i + 1) = 0 := by omega
          have hrec := ih (i + 1) (by omega)
          rw [hstop] at hrec
          rw [hrec, hstop]
          simp only [List.range', List.map_nil]
          show hexPad 2 (msg.data i).val ++ "" ++ "" =
            specJoinSpace [hexPad 2 (msg.data i).val]
          rw [String.append_empty, String.append_empty]
          rfl
      · have h0 : msg.dlc - i = 0 := by omega
        rw [h0]
        simp only [dataStrAux]
        rw [if_neg (fun hc => hcase hc.1)]
        rfl

/-- The frame from the claim: id 0x100, dlc 3, data 01 02 03,
timestamp 1000, standard data frame. -/
def logFrame : CANMessage :=
  { id := 0x100, dlc := 3, data := byteListData [1, 2, 3], timestamp := 1000 }

/-- Counterexample to C6: CANLogger::formatMessageCSV separates the hex
bytes with spaces, so the claimed space-free line "1000,0x100,3,010203,0,0"
is not produced; the actual line is "1000,0x100,3,01 02 03,0,0". -/
theorem C6_csv_line_counterexample :
    formatMessageCSV logFrame ≠ "1000,0x100,3,010203,0,0" ∧
    formatMessageCSV logFrame = "1000,0x100,3,01 02 03,0,0" := by
  constructor <;> decide

/-- C6 amended: the CSV line is timestamp, 0x-prefixed 3-hex-digit ID,
decimal dlc, data bytes as two hex digits each separated by single
spaces, extended 0/1, rtr 0/1; begin writes the header row and after
logMessage plus an elapsed-interval flush the file holds the header plus
that line for the claim's frame. -/
theorem C6_csv_line_amended :
    (∀ msg : CANMessage, msg.dlc ≤ 8 →
        formatMessageCSV msg = amendedCsvLine msg) ∧
    ((loggerBegin 0).logMessage logFrame true true false 6000).1.file =
      [csvHeader, "1000,0x100,3,01 02 03,0,0"] := by
  constructor
  · intro msg h
    unfold formatMessageCSV amendedCsvLine
    have hd := dataStrAux_eq_join msg h 8 0 (by omega)
    rw [Nat.sub_zero] at hd
    rw [hd, List.range_eq_range']
  · decide

/-- Witness for C6's amended theorem at the claim's frame. -/
theorem C6_csv_line_amended_witness :
    formatMessageCSV logFrame = amendedCsvLine logFrame :=
  C6_csv_line_amended.1 logFrame (by decide)

/-- A well-formed JSON field object (uint16_le, offset 0, length 2,
scale 1). -/
def dupFieldJson : Json :=
  .obj [("name", .str "pack_voltage"), ("byte_offset", .num 0),
        ("length", .num 2), ("data_type", .str "uint16_le"),
        ("scale", .num 1), ("offset", .num 0)]

/-- A well-formed JSON message object with can_id 0x100. -/
def dupMsgJson : Json :=
  .obj [("can_id", .num 256), ("name", .str "status"),
        ("fields", .arr [dupFieldJson])]

/-- An otherwise well-formed JSON document whose two messages share
can_id 0x100. -/
def dupIdDoc : Json :=
  .obj [("name", .str "DupProto"), ("messages", .arr [dupMsgJson, dupMsgJson])]

/-- C5 evaluated on the code: Loader::parseProtocol accepts a document
with two messages sharing can_id 0x100 and yields an installable
Definition (isValid true) holding both duplicate messages, instead of
rejecting it with a last-error string as the claim requires. -/
theorem C5_duplicate_can_ids_accepted :
    ((loaderParseProtocol dupIdDoc).toOption.map
        (fun d => d.messages.map Message.can_id)) = some [0x100, 0x100] ∧
    ((loaderParseProtocol dupIdDoc).toOption.map Definition.isValid) =
      some true := by
  constructor <;> decide
